import Mathlib

/-!
Verification of the Personal Musician core against its specification.

The development shallowly embeds three Go modules:
  search.go       - the YouTube result extractor (parseYouTubeResults and helpers)
  downloader.go   - the yt-dlp download orchestrator (Downloader)
  player.go       - the beep-based playback controller (Player)

External collaborators (the encoding/json decoder, the yt-dlp subprocess,
the filesystem, and the beep audio device) are modelled as explicit oracle
parameters; everything the repository itself computes is translated
definition-by-definition from the Go source.
-/

/-! ## Generic decoded-JSON trees

Go's encoding/json unmarshals into interface values: map[string]interface,
a slice of interface, string, float64, bool, or nil.  JSON objects decode to
maps with unique keys; they are represented here as association lists with
first-match lookup.  A decoded JSON null is Go's nil interface value and
fails every type assertion, exactly as the dedicated constructor below does
in every consumer. -/

inductive Json where
  | null
  | bool (b : Bool)
  | num (n : Int)
  | str (s : String)
  | arr (elems : List Json)
  | obj (fields : List (String × Json))

/-- Map indexing m[key] on a decoded JSON object: the unique binding of the
key, or Go's nil interface value (here: none) when the key is absent. -/
def jLookup (fields : List (String × Json)) (k : String) : Option Json :=
  match fields with
  | [] => none
  | (k1, v) :: rest => if k1 = k then some v else jLookup rest k

/-- search.go navigateJSON: walks nested maps by a key sequence.  When a key
is missing or the current value is not a map (including a decoded null, which
is Go's nil interface), the Go loop ends up returning nil; here: none. -/
def navigateJSON (data : Json) (keys : List String) : Option Json :=
  match keys with
  | [] => some data
  | k :: ks =>
    match data with
    | Json.obj m =>
      match jLookup m k with
      | some v => navigateJSON v ks
      | none => none
    | _ => none

/-- search.go SearchResult. -/
structure SearchResult where
  VideoID : String
  Title : String
  Channel : String
  Duration : String
  Thumbnail : String
deriving DecidableEq, Repr

/-- The repeated nested-shape read in extractVideoInfo: a map holding a
"runs" array whose first element is a map with a "text" string (used once
for the title and once for ownerText in the Go source). -/
def runsFirstText (v : Option Json) : String :=
  match v with
  | some (Json.obj m) =>
    match jLookup m ("runs") with
    | some (Json.arr (r :: _)) =>
      match r with
      | Json.obj rm =>
        match jLookup rm ("text") with
        | some (Json.str t) => t
        | _ => ""
      | _ => ""
    | _ => ""
  | _ => ""

/-- search.go extractVideoInfo: every failed type assertion leaves the
field at its zero value; the Thumbnail field is never assigned in the Go
function and stays empty. -/
def extractVideoInfo (renderer : List (String × Json)) : SearchResult :=
  { VideoID :=
      match jLookup renderer ("videoId") with
      | some (Json.str s) => s
      | _ => ""
    Title := runsFirstText (jLookup renderer ("title"))
    Channel := runsFirstText (jLookup renderer ("ownerText"))
    Duration :=
      match jLookup renderer ("lengthText") with
      | some (Json.obj lm) =>
        match jLookup lm ("simpleText") with
        | some (Json.str t) => t
        | _ => ""
      | _ => ""
    Thumbnail := "" }

/-- The section unwrapping at the top of the outer loop of
parseYouTubeResults: a section contributes items only when it is a map whose
"itemSectionRenderer" is a map whose "contents" is an array; otherwise the
Go loop continues to the next section. -/
def sectionItems (s : Json) : Option (List Json) :=
  match s with
  | Json.obj sm =>
    match jLookup sm ("itemSectionRenderer") with
    | some (Json.obj im) =>
      match jLookup im ("contents") with
      | some (Json.arr items) => some items
      | _ => none
    | _ => none
  | _ => none

/-- The inner item loop of parseYouTubeResults.  Returns the accumulated
results plus a flag recording whether the hard 10-result cutoff fired (the
Go code returns from the whole function at that point). -/
def collectFromItems (results : List SearchResult) :
    List Json → List SearchResult × Bool
  | [] => (results, false)
  | item :: rest =>
    match item with
    | Json.obj im =>
      match jLookup im ("videoRenderer") with
      | some (Json.obj vr) =>
        let r := extractVideoInfo vr
        if r.VideoID ≠ "" then
          let results1 := results ++ [r]
          if 10 ≤ results1.length then (results1, true)
          else collectFromItems results1 rest
        else collectFromItems results rest
      | _ => collectFromItems results rest
    | _ => collectFromItems results rest

/-- The outer section loop of parseYouTubeResults. -/
def collectFromSections (results : List SearchResult) :
    List Json → List SearchResult
  | [] => results
  | s :: rest =>
    match sectionItems s with
    | none => collectFromSections results rest
    | some items =>
      match collectFromItems results items with
      | (results1, true) => results1
      | (results1, false) => collectFromSections results1 rest

/-- The fixed navigation path of parseYouTubeResults. -/
def ytPath : List String :=
  ["contents", "twoColumnSearchResultsRenderer", "primaryContents",
   "sectionListRenderer", "contents"]

/-- search.go line 78: the error when neither marker pattern matches. -/
def errNoData : String := "could not find video data in response"

/-- search.go line 84: the error when the matched block is not valid JSON
(the Go message wraps the json library's own error text). -/
def errParse : String := "failed to parse video data"

/-- The part of parseYouTubeResults after the marker block has been
located: unmarshal the block (the external encoding/json decoder is the
oracle argument), navigate the fixed path, and run the two collection
loops.  A nil or non-array navigation result returns the empty result list
with no error, as in the Go source. -/
def parseFromBlock (decode : String → Option Json) (block : String) :
    Except String (List SearchResult) :=
  match decode block with
  | none => Except.error errParse
  | some data =>
    match navigateJSON data ytPath with
    | some (Json.arr contentsList) =>
      Except.ok (collectFromSections [] contentsList)
    | _ => Except.ok []

/-! ## The two marker regular expressions

parseYouTubeResults locates the ytInitialData block with Go regexp
(RE2, leftmost match, with the lazy quantifier preferring the shortest
capture at the leftmost matching position).  The two concrete patterns of
search.go lines 68 and 73 are modelled directly as string scanners:

  pattern 1:  the literal text  var ytInitialData =  and a space, then a
              captured brace block immediately followed by a semicolon;
  pattern 2:  the literal  ytInitialData , optional whitespace, an equals
              sign, optional whitespace, then the same captured block.

The dot of the lazy quantifier matches any character except a newline, so
a candidate block is the shortest run from an opening brace to the first
close-brace-semicolon pair, failing if a newline intervenes. -/

/-- Drop a literal prefix, or fail. -/
def dropLit : List Char → List Char → Option (List Char)
  | [], l => some l
  | _ :: _, [] => none
  | p :: ps, c :: rest => if c = p then dropLit ps rest else none

/-- The lazy scan inside the capture group: consume characters (never a
newline) until a close brace immediately followed by a semicolon, and
return the capture accumulated so far (held in reverse) closed by that
brace. -/
def braceScan (acc : List Char) : List Char → Option (List Char)
  | [] => none
  | c :: rest =>
    if c = '\x7d' ∧ rest.head? = some ';' then some ((c :: acc).reverse)
    else if c = '\n' then none
    else braceScan (c :: acc) rest

/-- The capture group of both patterns: an opening brace, then the lazy
scan to the first close-brace-semicolon pair. -/
def captureGroup : List Char → Option (List Char)
  | [] => none
  | c :: rest => if c = '\x7b' then braceScan [c] rest else none

/-- The RE2 whitespace class (tab, newline, form feed, carriage return,
space). -/
def isReSpace (c : Char) : Bool :=
  c == ' ' || c == '\t' || c == '\n' || c == '\x0c' || c == '\r'

/-- Greedy whitespace skip for the optional-whitespace parts of the second
pattern (whitespace characters can never satisfy the following literal
equals sign, so the greedy skip is the only candidate). -/
def skipWs : List Char → List Char
  | [] => []
  | c :: rest => if isReSpace c then skipWs rest else c :: rest

/-- The literal part of the first marker pattern. -/
def lit1 : List Char := ("var ytInitialData = ").data

/-- The literal part of the second marker pattern. -/
def lit2 : List Char := ("ytInitialData").data

/-- Try the first pattern anchored at the head of the text. -/
def tryP1At (l : List Char) : Option (List Char) :=
  match dropLit lit1 l with
  | none => none
  | some rest => captureGroup rest

/-- Leftmost search for the first pattern: the anchored attempt at each
position from the left, first success wins. -/
def findP1 : List Char → Option (List Char)
  | [] => none
  | c :: rest =>
    match tryP1At (c :: rest) with
    | some m => some m
    | none => findP1 rest

/-- Try the second pattern anchored at the head of the text. -/
def tryP2At (l : List Char) : Option (List Char) :=
  match dropLit lit2 l with
  | none => none
  | some r =>
    match skipWs r with
    | '=' :: r2 => captureGroup (skipWs r2)
    | _ => none

/-- Leftmost search for the second pattern. -/
def findP2 : List Char → Option (List Char)
  | [] => none
  | c :: rest =>
    match tryP2At (c :: rest) with
    | some m => some m
    | none => findP2 rest

/-- search.go lines 67-79: the first pattern is tried first; only when it
produces no match is the alternative pattern tried. -/
def findInitialData (html : String) : Option String :=
  match findP1 html.data with
  | some m => some (String.mk m)
  | none =>
    match findP2 html.data with
    | some m => some (String.mk m)
    | none => none

/-- search.go parseYouTubeResults: locate the data block with the two
marker patterns, then decode and walk it.  The external encoding/json
unmarshaller is the decode oracle; Go errors are modelled as the error
strings the function builds with fmt.Errorf. -/
def parseYouTubeResults (decode : String → Option Json) (html : String) :
    Except String (List SearchResult) :=
  match findInitialData html with
  | none => Except.error errNoData
  | some block => parseFromBlock decode block

/-! ## The download orchestrator (downloader.go)

The Downloader struct's mutable fields are modelled as a record threaded
through the operations; the mutex that linearizes every access in Go makes
each operation an atomic state transition here.  The context cancel
function and the subprocess handle are modelled by their nilness, which is
all the Go code ever branches on. -/

/-- downloader.go Downloader: the mutable fields of the singleton job
state.  progress (a float64 in Go) only ever takes the exact values 0 and
100 in this code, so it is modelled as a natural number. -/
structure Downloader where
  musicDir : String
  downloadedFiles : List String
  progress : Nat
  status : String
  isDownloading : Bool
  hasCancelFunc : Bool
  hasCmd : Bool
deriving DecidableEq, Repr

/-- downloader.go DownloadProgress, as returned by GetProgress. -/
structure DownloadProgress where
  Progress : Nat
  Status : String
  IsDownloading : Bool
  Files : List String
deriving DecidableEq, Repr

/-- downloader.go NewDownloader, success path: directory creation and the
yt-dlp lookup are external; the fresh state has status Idle and zero
values everywhere else. -/
def NewDownloader (musicDir : String) : Downloader :=
  { musicDir := musicDir
    downloadedFiles := []
    progress := 0
    status := "Idle"
    isDownloading := false
    hasCancelFunc := false
    hasCmd := false }

/-- downloader.go line 76: the duplicate-start error message. -/
def errAlreadyRunning : String := "a download is already in progress"

/-- downloader.go DownloadFromYouTube: under the lock, reject when a
download is already in progress, leaving the state untouched; otherwise
mark the job running, reset progress and files, install the cancel
function, and launch the background goroutine.  The result is the new
state, the returned error if any, and the argument pair of the goroutine
launched (none when no goroutine is started). -/
def DownloadFromYouTube (d : Downloader) (videoID title : String) :
    Downloader × Option String × Option (String × String) :=
  if d.isDownloading then (d, some errAlreadyRunning, none)
  else
    ({ d with
        isDownloading := true
        progress := 0
        status := "Starting download..."
        downloadedFiles := []
        hasCancelFunc := true },
     none,
     some (videoID, title))

/-- downloader.go sanitizeFilename step 1: the regexp replace that deletes
every character in the illegal class. -/
def illegalChar (c : Char) : Bool :=
  c == '<' || c == '>' || c == ':' || c == '"' || c == '/' ||
  c == '\\' || c == '|' || c == '?' || c == '*'

/-- Removal of the illegal characters (ReplaceAllString with the empty
replacement). -/
def stripIllegal (name : String) : String :=
  String.mk (name.data.filter (fun c => !illegalChar c))

/-- Trim a predicate from both ends of a character list. -/
def trimBoth (p : Char → Bool) (l : List Char) : List Char :=
  ((l.dropWhile p).reverse.dropWhile p).reverse

/-- Go's unicode space class, restricted to the ASCII range (the non-ASCII
code points unicode.IsSpace also accepts play no role in any claim). -/
def isSpaceGo (c : Char) : Bool :=
  c == ' ' || c == '\t' || c == '\n' || c == '\x0b' || c == '\x0c' || c == '\r'

/-- strings.TrimSpace. -/
def trimSpaceGo (s : String) : String :=
  String.mk (trimBoth isSpaceGo s.data)

/-- strings.Trim with the cutset consisting of the dot character (note: Go
Trim removes dots from both ends, not only trailing ones). -/
def trimDots (s : String) : String :=
  String.mk (trimBoth (fun c => c == '.') s.data)

/-- The UTF-8 byte length Go's len() reports for a string. -/
def utf8Len (s : String) : Nat :=
  (s.data.map Char.utf8Size).sum

/-- Keep the longest prefix of whole characters that fits in n bytes.
Go's byte slice safe[:100] can split a multi-byte character and keep its
leading bytes; the model stops at the last whole character instead.  Both
results are at most n bytes long and agree on ASCII data, and no claim
distinguishes them. -/
def takeBytes : Nat → List Char → List Char
  | _, [] => []
  | n, c :: rest =>
    if c.utf8Size ≤ n then c :: takeBytes (n - c.utf8Size) rest else []

/-- downloader.go sanitizeFilename step 4: truncate to 100 bytes when
longer. -/
def truncate100 (s : String) : String :=
  if 100 < utf8Len s then String.mk (takeBytes 100 s.data) else s

/-- downloader.go sanitizeFilename: strip the illegal characters, trim
whitespace, trim dots, truncate to 100 bytes - in that order. -/
def sanitizeFilename (name : String) : String :=
  truncate100 (trimDots (trimSpaceGo (stripIllegal name)))

/-- downloader.go downloadVideo lines 105-108: the sanitized title, with
the raw video identifier as fallback when it is empty. -/
def derivedName (title videoID : String) : String :=
  let safeTitle := sanitizeFilename title
  if safeTitle = "" then videoID else safeTitle

/-- downloader.go setStatus. -/
def setStatus (d : Downloader) (status : String) (downloading : Bool) :
    Downloader :=
  { d with status := status, isDownloading := downloading }

/-- filepath.Base for the non-empty slash-separated paths this code
builds: the part after the last separator. -/
def filepathBase (p : String) : String :=
  String.mk ((p.data.reverse.takeWhile (fun c => c ≠ '/')).reverse)

/-- The external facts one run of the background path observes: whether
the governing context was cancelled, the subprocess error if its exit was
non-zero, whether the exact mp3 output name exists, and the glob matches
for derivedName followed by a dot and anything. -/
structure DownloadEnv where
  cancelled : Bool
  cmdError : Option String
  mp3Exists : Bool
  globMatches : List String

/-- downloader.go downloadVideo: the single background execution path.
The deferred block of lines 96-102 (clear the running flag, drop the
cancel function and the subprocess handle) is applied at the end of every
branch, exactly as defer does. -/
def downloadVideo (d : Downloader) (env : DownloadEnv)
    (videoID title : String) : Downloader :=
  let safeTitle := derivedName title videoID
  let mp3Path := d.musicDir ++ "/" ++ safeTitle ++ ".mp3"
  let d1 := setStatus d ("Downloading with yt-dlp...") true
  let d2 := { d1 with hasCmd := true }
  let d3 :=
    if env.cancelled then setStatus d2 ("Download cancelled") false
    else
      match env.cmdError with
      | some e => setStatus d2 ("Download failed: " ++ e) false
      | none =>
        let found :=
          if env.mp3Exists then some mp3Path else env.globMatches.head?
        match found with
        | none => setStatus d2 ("Download completed but file not found") false
        | some p =>
          { d2 with
              downloadedFiles := [p]
              progress := 100
              status := "Downloaded: " ++ filepathBase p
              isDownloading := false }
  { d3 with isDownloading := false, hasCancelFunc := false, hasCmd := false }

/-- downloader.go GetProgress: the locked snapshot of the four published
fields. -/
def GetProgress (d : Downloader) : DownloadProgress :=
  { Progress := d.progress
    Status := d.status
    IsDownloading := d.isDownloading
    Files := d.downloadedFiles }

/-- downloader.go CancelDownload: call and drop the cancel function when
present, kill the subprocess when present (an external effect with no
state field), then unconditionally clear the running flag and set the
status text to the cancelled message. -/
def CancelDownload (d : Downloader) : Downloader :=
  let d1 := if d.hasCancelFunc then { d with hasCancelFunc := false } else d
  { d1 with isDownloading := false, status := "Download cancelled" }

/-- downloader.go IsDownloading. -/
def IsDownloading (d : Downloader) : Bool :=
  d.isDownloading

/-! ## The playback controller (player.go)

The Player struct is modelled as a record; the beep/speaker audio device
is an oracle recording whether opening, decoding and device initialization
succeed for a given path and what the decoded stream length is.  The
streamer and ctrl pointers are collapsed into a single open-stream flag
(the Go code always sets and clears them together); the device-level
fields sampleRate, format and position live on the external device side
and carry no claim. -/

/-- filesystem.go MusicFile. -/
structure MusicFile where
  Name : String
  Path : String
  FileName : String
deriving DecidableEq, Repr

/-- player.go Player: the mutable playback state. -/
structure Player where
  streamOpen : Bool
  speakerInit : Bool
  currentFile : String
  isPlaying : Bool
  isPaused : Bool
  duration : Nat
  playlist : List MusicFile
  currentIndex : Int
deriving DecidableEq, Repr

/-- The audio collaborator: success of os.Open, of mp3.Decode, of the
one-time speaker.Init, and the decoded stream length used for the cached
duration. -/
structure AudioEnv where
  openOk : String → Bool
  decodeOk : String → Bool
  initOk : Bool
  trackLen : String → Nat

/-- player.go NewPlayer: zero state with currentIndex -1. -/
def NewPlayer : Player :=
  { streamOpen := false
    speakerInit := false
    currentFile := ""
    isPlaying := false
    isPaused := false
    duration := 0
    playlist := []
    currentIndex := -1 }

/-- player.go stopInternal: close and clear any open stream (and its
ctrl), and clear the playing and paused flags. -/
def stopInternal (p : Player) : Player :=
  { p with streamOpen := false, isPlaying := false, isPaused := false }

/-- player.go PlayFile: stop the previous stream, then open, decode,
initialize the speaker on first use, store the new stream state and the
cached duration, and hand the stream to the device.  Failures return the
error with the state as mutated so far (the old stream is already closed).
The result is the state together with the returned error, if any. -/
def PlayFile (env : AudioEnv) (p : Player) (filePath : String) :
    Player × Option String :=
  let p1 := stopInternal p
  if !env.openOk filePath then (p1, some ("failed to open file"))
  else if !env.decodeOk filePath then (p1, some ("failed to decode MP3"))
  else if !p1.speakerInit && !env.initOk then
    (p1, some ("failed to initialize speaker"))
  else
    ({ p1 with
        speakerInit := true
        streamOpen := true
        currentFile := filePath
        isPlaying := true
        isPaused := false
        duration := env.trackLen filePath },
     none)

/-- player.go line 158: the invalid-index error message. -/
def errIndexRange : String := "index out of range"

/-- player.go lines 206 and 221: the empty-playlist error message. -/
def errEmptyPlaylist : String := "playlist is empty"

/-- player.go PlayIndex: bounds-check the index, record it as current,
and play that track's path.  The index is recorded before PlayFile runs,
so it stays set even when opening the file fails. -/
def PlayIndex (env : AudioEnv) (p : Player) (index : Int) :
    Player × Option String :=
  if index < 0 ∨ (p.playlist.length : Int) ≤ index then
    (p, some errIndexRange)
  else
    let p1 := { p with currentIndex := index }
    PlayFile env p1
      ((p.playlist.getD index.toNat ⟨"", "", ""⟩).Path)

/-- player.go NextSong: empty-playlist guard, then the wraparound
successor index.  Go's % on int is truncated division remainder, written
here as Int.tmod. -/
def NextSong (env : AudioEnv) (p : Player) : Player × Option String :=
  if p.playlist.length = 0 then (p, some errEmptyPlaylist)
  else
    PlayIndex env p (Int.tmod (p.currentIndex + 1) (p.playlist.length : Int))

/-- player.go PrevSong: empty-playlist guard, then step back one index,
wrapping to the last track when the result would be negative. -/
def PrevSong (env : AudioEnv) (p : Player) : Player × Option String :=
  if p.playlist.length = 0 then (p, some errEmptyPlaylist)
  else
    let prevIndex := p.currentIndex - 1
    let prevIndex :=
      if prevIndex < 0 then (p.playlist.length : Int) - 1 else prevIndex
    PlayIndex env p prevIndex

/-- player.go SetPlaylist: replace the track list; promote a negative
current index to 0 when the new list is non-empty; touch nothing else. -/
def SetPlaylist (p : Player) (files : List MusicFile) : Player :=
  let p1 := { p with playlist := files }
  if 0 < files.length ∧ p1.currentIndex < 0 then { p1 with currentIndex := 0 }
  else p1

/-- Iterated NextSong (the state component), for the wraparound closure
property. -/
def nextIter (env : AudioEnv) : Nat → Player → Player
  | 0, p => p
  | k + 1, p => nextIter env k (NextSong env p).1

/-- Iterated PrevSong (the state component). -/
def prevIter (env : AudioEnv) : Nat → Player → Player
  | 0, p => p
  | k + 1, p => prevIter env k (PrevSong env p).1

/-! ## Statement apparatus

Derived notions used to state the claims: the classification of one item
of the decoded block (a video item is one the extractor keeps - an item
carrying a videoRenderer object yielding a non-empty identifier; every
other item, ad or shelf or malformed or identifier-less, is skipped), a
builder for well-formed documents, and the end-character check the
sanitizer claim speaks about. -/

/-- The result the inner loop of parseYouTubeResults keeps for one item:
some extracted record when the item is a map whose videoRenderer is a map
yielding a non-empty video identifier, none otherwise (the item is
skipped). -/
def videoResult : Json → Option SearchResult
  | Json.obj im =>
    match jLookup im ("videoRenderer") with
    | some (Json.obj vr) =>
      let r := extractVideoInfo vr
      if r.VideoID ≠ "" then some r else none
    | _ => none
  | _ => none

/-- The video items of one section, in order (empty when the section's
wrapper shape is not the one the outer loop unwraps). -/
def sectionVideos (s : Json) : List SearchResult :=
  match sectionItems s with
  | some items => items.filterMap videoResult
  | none => []

/-- All video items of a decoded block, in document order. -/
def allVideos (sections : List Json) : List SearchResult :=
  (sections.map sectionVideos).flatten

/-- A decoded data block whose fixed navigation path leads to the given
sections: the well-formed document shape of the extractor claims. -/
def mkDoc (sections : List Json) : Json :=
  Json.obj [("contents", Json.obj
    [("twoColumnSearchResultsRenderer", Json.obj
      [("primaryContents", Json.obj
        [("sectionListRenderer", Json.obj
          [("contents", Json.arr sections)])])])])]

/-- A section wrapper of the shape the outer loop unwraps. -/
def mkSection (items : List Json) : Json :=
  Json.obj [("itemSectionRenderer", Json.obj [("contents", Json.arr items)])]

/-- A minimal video item with the given identifier. -/
def videoItem (id : String) : Json :=
  Json.obj [("videoRenderer", Json.obj [("videoId", Json.str id)])]

/-- A non-video item (an ad slot), skipped by the extractor. -/
def adItem : Json :=
  Json.obj [("adSlotRenderer", Json.obj [])]

/-- Whether a string starts and ends free of whitespace and dots - the
trimmed-ends reading of the sanitizer claim. -/
def edgeClean (s : String) : Bool :=
  (match s.data.head? with
   | some c => !(isSpaceGo c || c == '.')
   | none => true) &&
  (match s.data.getLast? with
   | some c => !(isSpaceGo c || c == '.')
   | none => true)

/-- Concrete well-formed sections: two video items with one ad between
them, used to instantiate the extractor claims. -/
def sectionsEx : List Json :=
  [mkSection [videoItem ("abc"), adItem, videoItem ("defg")]]

/-- A decode oracle returning the concrete well-formed block. -/
def decodeEx : String → Option Json :=
  fun _ => some (mkDoc sectionsEx)

/-- A concrete response carrying the first marker pattern. -/
def htmlEx : String := "var ytInitialData = \x7b\x7d;"

/-- A decode oracle returning an empty object, which lacks the expected
navigation path. -/
def decodeEmptyObj : String → Option Json :=
  fun _ => some (Json.obj [])

/-- A concrete idle downloader, as NewDownloader builds it. -/
def idleDownloader : Downloader := NewDownloader ("Music")

/-- A concrete downloader with a job running. -/
def runningDownloader : Downloader :=
  { (NewDownloader ("Music")) with
      isDownloading := true
      status := "Starting download..."
      hasCancelFunc := true }

/-- A concrete environment for one successful background run. -/
def dlEnvEx : DownloadEnv :=
  { cancelled := false, cmdError := none, mp3Exists := true, globMatches := [] }

/-- A concrete audio environment in which every operation succeeds. -/
def envEx : AudioEnv :=
  { openOk := fun _ => true
    decodeOk := fun _ => true
    initOk := true
    trackLen := fun _ => 0 }

/-- A concrete two-track player positioned at the first track. -/
def playerEx : Player :=
  { NewPlayer with
      playlist := [⟨"a", "Music/a.mp3", "a.mp3"⟩, ⟨"b", "Music/b.mp3", "b.mp3"⟩]
      currentIndex := 0 }

/-! ## Claim theorems -/

/-- C2: a start call made while a job is already running returns the
already-in-progress error immediately, leaves every field of the running
job's state unchanged, and launches no second background job. -/
theorem downloadFromYouTube_rejects_when_running (d : Downloader)
    (v t : String) (h : d.isDownloading = true) :
    DownloadFromYouTube d v t = (d, some errAlreadyRunning, none) := by
  simp [DownloadFromYouTube, h]

/-- C2 witness: the rejection at a concrete running state. -/
theorem downloadFromYouTube_rejects_witness :
    runningDownloader.isDownloading = true ∧
    DownloadFromYouTube runningDownloader ("id1") ("T") =
      (runningDownloader, some errAlreadyRunning, none) :=
  ⟨rfl, downloadFromYouTube_rejects_when_running runningDownloader ("id1") ("T") rfl⟩

/-- C3: a background run that is not cancelled, whose subprocess exits
zero, and whose output file is found by exact name or by the glob
fallback, ends with exactly one result file, progress 100 and the running
flag cleared, as observed through GetProgress. -/
theorem downloadVideo_success_state (d : Downloader) (env : DownloadEnv)
    (v t : String) (hc : env.cancelled = false) (he : env.cmdError = none)
    (hf : env.mp3Exists = true ∨ env.globMatches ≠ []) :
    ∃ path, (GetProgress (downloadVideo d env v t)).Files = [path] ∧
      (GetProgress (downloadVideo d env v t)).Progress = 100 ∧
      (GetProgress (downloadVideo d env v t)).IsDownloading = false := by
  by_cases hm : env.mp3Exists = true
  · exact ⟨d.musicDir ++ "/" ++ derivedName t v ++ ".mp3",
      by simp [downloadVideo, GetProgress, setStatus, hc, he, hm]⟩
  · have hg0 : env.globMatches ≠ [] := by
      rcases hf with hf | hf
      · exact absurd hf hm
      · exact hf
    obtain ⟨m, ms, hg⟩ := List.exists_cons_of_ne_nil hg0
    exact ⟨m, by simp [downloadVideo, GetProgress, setStatus, hc, he,
      Bool.not_eq_true _ ▸ hm, hg]⟩

/-- C3 witness: a concrete successful run from the idle state. -/
theorem downloadVideo_success_witness :
    dlEnvEx.cancelled = false ∧ dlEnvEx.cmdError = none ∧
    dlEnvEx.mp3Exists = true ∧
    (∃ path,
      (GetProgress (downloadVideo idleDownloader dlEnvEx ("id1") ("T"))).Files
        = [path] ∧
      (GetProgress (downloadVideo idleDownloader dlEnvEx ("id1") ("T"))).Progress
        = 100 ∧
      (GetProgress (downloadVideo idleDownloader dlEnvEx ("id1") ("T"))).IsDownloading
        = false) :=
  ⟨rfl, rfl, rfl,
   downloadVideo_success_state idleDownloader dlEnvEx ("id1") ("T") rfl rfl
     (Or.inl rfl)⟩

/-- C4 counterexample: on the concrete idle state (no job running, no
cancel function, no subprocess), CancelDownload is not a no-op - it
overwrites the Idle status text with the cancelled message, which implies
a job ran. -/
theorem cancelDownload_not_noop :
    CancelDownload idleDownloader ≠ idleDownloader ∧
    (CancelDownload idleDownloader).status = "Download cancelled" ∧
    idleDownloader.status = "Idle" ∧
    idleDownloader.isDownloading = false ∧
    idleDownloader.hasCancelFunc = false ∧
    idleDownloader.hasCmd = false := by
  decide

/-- C4 amended: CancelDownload called with no active job (running flag
clear, no cancel function, no subprocess) leaves every field unchanged
except the status text, which it unconditionally overwrites with the
cancelled message. -/
theorem cancelDownload_idle_only_status (d : Downloader)
    (h1 : d.isDownloading = false) (h2 : d.hasCancelFunc = false)
    (h3 : d.hasCmd = false) :
    CancelDownload d = { d with status := "Download cancelled" } := by
  cases d
  simp_all [CancelDownload]

/-- C4 witness: the amended behaviour at the concrete idle state. -/
theorem cancelDownload_idle_witness :
    CancelDownload idleDownloader =
      { idleDownloader with status := "Download cancelled" } :=
  cancelDownload_idle_only_status idleDownloader rfl rfl rfl

/-- C8: NextSong and PrevSong on an empty playlist return the
empty-playlist error and leave the player state completely unchanged (in
particular no stream is opened and the index and the playing and paused
flags are untouched). -/
theorem nextPrev_empty_playlist (env : AudioEnv) (p : Player)
    (h : p.playlist = []) :
    NextSong env p = (p, some errEmptyPlaylist) ∧
    PrevSong env p = (p, some errEmptyPlaylist) := by
  constructor <;> simp [NextSong, PrevSong, h]

/-- C8 witness: both navigation calls on the fresh idle player. -/
theorem nextPrev_empty_witness :
    NewPlayer.playlist = [] ∧
    NextSong envEx NewPlayer = (NewPlayer, some errEmptyPlaylist) ∧
    PrevSong envEx NewPlayer = (NewPlayer, some errEmptyPlaylist) :=
  ⟨rfl, nextPrev_empty_playlist envEx NewPlayer rfl⟩

/-- C9: SetPlaylist replaces only the playlist field - playback flags,
stream, current file, speaker state and duration are untouched - and the
current index changes only by being promoted to 0 when it was negative and
the new list is non-empty; in particular an index at or beyond the new
length is left as-is, never re-validated. -/
theorem setPlaylist_frame (p : Player) (files : List MusicFile) :
    (SetPlaylist p files).playlist = files ∧
    (SetPlaylist p files).isPlaying = p.isPlaying ∧
    (SetPlaylist p files).isPaused = p.isPaused ∧
    (SetPlaylist p files).streamOpen = p.streamOpen ∧
    (SetPlaylist p files).currentFile = p.currentFile ∧
    (SetPlaylist p files).speakerInit = p.speakerInit ∧
    (SetPlaylist p files).duration = p.duration ∧
    (SetPlaylist p files).currentIndex =
      (if 0 < files.length ∧ p.currentIndex < 0 then 0 else p.currentIndex) := by
  by_cases hc : 0 < files.length ∧ p.currentIndex < 0
  · simp [SetPlaylist, hc]
  · simp [SetPlaylist, hc]

/-! ### Extractor lemmas (claims C1, C7 and C10) -/

/-- The inner item loop, one step: an item is either kept (its videoResult)
or skipped, and after a keep the 10-result cutoff is checked. -/
theorem collectFromItems_cons (results : List SearchResult) (item : Json)
    (rest : List Json) :
    collectFromItems results (item :: rest) =
      match videoResult item with
      | some r =>
        if 10 ≤ (results ++ [r]).length then (results ++ [r], true)
        else collectFromItems (results ++ [r]) rest
      | none => collectFromItems results rest := by
  cases item with
  | null => rfl
  | bool b => rfl
  | num n => rfl
  | str s => rfl
  | arr l => rfl
  | obj im =>
    simp only [collectFromItems, videoResult]
    cases hj : jLookup im ("videoRenderer") with
    | none => rfl
    | some v =>
      cases v with
      | null => rfl
      | bool b => rfl
      | num n => rfl
      | str s => rfl
      | arr l => rfl
      | obj vr =>
        by_cases hr : (extractVideoInfo vr).VideoID = ""
        · simp [hr]
        · simp [hr]

/-- A record kept by the item loop carries a non-empty identifier. -/
theorem videoResult_VideoID_ne {item : Json} {r : SearchResult}
    (h : videoResult item = some r) : r.VideoID ≠ "" := by
  cases item with
  | null => simp [videoResult] at h
  | bool b => simp [videoResult] at h
  | num n => simp [videoResult] at h
  | str s => simp [videoResult] at h
  | arr l => simp [videoResult] at h
  | obj im =>
    simp only [videoResult] at h
    cases hj : jLookup im ("videoRenderer") with
    | none => rw [hj] at h; simp at h
    | some v =>
      rw [hj] at h
      cases v with
      | null => simp at h
      | bool b => simp at h
      | num n => simp at h
      | str s => simp at h
      | arr l => simp at h
      | obj vr =>
        by_cases hx : (extractVideoInfo vr).VideoID = ""
        · simp [hx] at h
        · simp only [ne_eq, hx, not_false_eq_true, if_true,
            Option.some.injEq] at h
          rw [← h]
          simpa using hx

/-- The item loop skips an item whose videoResult is none. -/
theorem collectFromItems_cons_none {item : Json}
    (results : List SearchResult) (rest : List Json)
    (hv : videoResult item = none) :
    collectFromItems results (item :: rest) = collectFromItems results rest := by
  rw [collectFromItems_cons, hv]

/-- The item loop keeps an item whose videoResult is some record, then
applies the 10-result cutoff. -/
theorem collectFromItems_cons_some {item : Json} {r : SearchResult}
    (results : List SearchResult) (rest : List Json)
    (hv : videoResult item = some r) :
    collectFromItems results (item :: rest) =
      if 10 ≤ (results ++ [r]).length then (results ++ [r], true)
      else collectFromItems (results ++ [r]) rest := by
  rw [collectFromItems_cons, hv]

/-- The inner item loop in closed form: with fewer than 10 results
accumulated, it appends the items' kept records up to the 10-result cap,
and signals the early return exactly when the cap is reached. -/
theorem collectFromItems_spec :
    ∀ (items : List Json) (results : List SearchResult),
      results.length ≤ 9 →
      collectFromItems results items =
        (results ++ (items.filterMap videoResult).take (10 - results.length),
         decide (10 ≤ results.length + (items.filterMap videoResult).length))
  | [], results, h => by
    simp only [collectFromItems, List.filterMap_nil, List.take_nil,
      List.append_nil, List.length_nil, Nat.add_zero]
    rw [decide_eq_false (by omega)]
  | item :: rest, results, h => by
    cases hv : videoResult item with
    | none =>
      rw [collectFromItems_cons_none results rest hv,
        List.filterMap_cons_none hv]
      exact collectFromItems_spec rest results h
    | some r =>
      rw [collectFromItems_cons_some results rest hv,
        List.filterMap_cons_some hv]
      have hlr : (results ++ [r]).length = results.length + 1 := by
        simp only [List.length_append, List.length_singleton]
      by_cases h9 : results.length = 9
      · have hge : 10 ≤ (results ++ [r]).length := by omega
        rw [if_pos hge]
        have ht : (10 - results.length) = 1 := by omega
        rw [ht, List.take_succ_cons, List.take_zero]
        have hde : 10 ≤ results.length +
            (r :: List.filterMap videoResult rest).length := by
          simp only [List.length_cons]; omega
        rw [decide_eq_true hde]
      · have hlt : ¬10 ≤ (results ++ [r]).length := by omega
        rw [if_neg hlt]
        have ih := collectFromItems_spec rest (results ++ [r]) (by omega)
        rw [ih]
        obtain ⟨m, hm⟩ : ∃ m, 10 - results.length = m + 1 :=
          ⟨9 - results.length, by omega⟩
        rw [hm, List.take_succ_cons]
        simp only [List.length_append, List.length_singleton, List.append_assoc,
          List.singleton_append, Prod.mk.injEq]
        constructor
        · have h2 : 10 - (results.length + 1) = m := by omega
          rw [h2]
        · rw [decide_eq_decide]
          simp only [List.length_cons]
          omega

/-- allVideos distributes over a leading section. -/
theorem allVideos_cons (s : Json) (rest : List Json) :
    allVideos (s :: rest) = sectionVideos s ++ allVideos rest := by
  simp [allVideos]

/-- The section loop skips a section without the expected wrapper shape. -/
theorem collectFromSections_cons_none {s : Json}
    (results : List SearchResult) (rest : List Json)
    (hs : sectionItems s = none) :
    collectFromSections results (s :: rest) =
      collectFromSections results rest := by
  simp only [collectFromSections]
  rw [hs]

/-- The section loop runs the item loop on a well-shaped section's items:
an early return propagates, otherwise the loop continues on the remaining
sections with the enlarged accumulator. -/
theorem collectFromSections_cons_some {s : Json} {items : List Json}
    (results a : List SearchResult) (b : Bool) (rest : List Json)
    (hs : sectionItems s = some items)
    (hab : collectFromItems results items = (a, b)) :
    collectFromSections results (s :: rest) =
      if b then a else collectFromSections a rest := by
  have hred : collectFromSections results (s :: rest) =
      match collectFromItems results items with
      | (results1, true) => results1
      | (results1, false) => collectFromSections results1 rest := by
    simp only [collectFromSections]
    rw [hs]
  rw [hred, hab]
  cases b <;> rfl

/-- The outer section loop in closed form: with fewer than 10 results
accumulated, it appends all remaining kept records up to the 10-result
cap, across sections. -/
theorem collectFromSections_spec :
    ∀ (sections : List Json) (results : List SearchResult),
      results.length ≤ 9 →
      collectFromSections results sections =
        results ++ (allVideos sections).take (10 - results.length)
  | [], results, h => by
    simp [collectFromSections, allVideos]
  | s :: rest, results, h => by
    cases hs : sectionItems s with
    | none =>
      rw [collectFromSections_cons_none results rest hs,
        collectFromSections_spec rest results h, allVideos_cons]
      simp [sectionVideos, hs]
    | some items =>
      have hsv : sectionVideos s = items.filterMap videoResult := by
        simp [sectionVideos, hs]
      by_cases hb : 10 ≤ results.length + (items.filterMap videoResult).length
      · rw [collectFromSections_cons_some results _ _ rest hs
          (collectFromItems_spec items results h), decide_eq_true hb,
          if_pos rfl]
        rw [allVideos_cons, hsv, List.take_append_eq_append_take]
        have hz : 10 - results.length - (items.filterMap videoResult).length
            = 0 := by omega
        rw [hz, List.take_zero, List.append_nil]
      · rw [collectFromSections_cons_some results _ _ rest hs
          (collectFromItems_spec items results h), decide_eq_false hb,
          if_neg Bool.false_ne_true]
        have hall : (items.filterMap videoResult).take (10 - results.length) =
            items.filterMap videoResult :=
          List.take_of_length_le (by omega)
        rw [hall]
        have hlen2 : (results ++ items.filterMap videoResult).length ≤ 9 := by
          simp only [List.length_append]; omega
        rw [collectFromSections_spec rest _ hlen2, allVideos_cons, hsv,
          List.take_append_eq_append_take]
        have hall2 : (items.filterMap videoResult).take (10 - results.length) =
            items.filterMap videoResult :=
          List.take_of_length_le (by omega)
        rw [hall2, List.append_assoc]
        simp only [List.length_append]
        have hc : 10 - (results.length + (items.filterMap videoResult).length) =
            10 - results.length - (items.filterMap videoResult).length := by
          omega
        rw [hc]

/-- The fixed navigation path on a well-formed document reaches its
sections array. -/
theorem navigate_mkDoc (sections : List Json) :
    navigateJSON (mkDoc sections) ytPath = some (Json.arr sections) := by
  simp [navigateJSON, mkDoc, ytPath, jLookup]

/-- Once a marker block is found, the extractor's result is that of the
block pipeline. -/
theorem parseYouTubeResults_eq_block (decode : String → Option Json)
    (html block : String) (hfind : findInitialData html = some block) :
    parseYouTubeResults decode html = parseFromBlock decode block := by
  unfold parseYouTubeResults
  rw [hfind]

/-- Once the block decodes, the block pipeline's result is that of the
navigation and collection stage. -/
theorem parseFromBlock_decode (decode : String → Option Json)
    (block : String) (data : Json) (hdec : decode block = some data) :
    parseFromBlock decode block =
      match navigateJSON data ytPath with
      | some (Json.arr contentsList) =>
        Except.ok (collectFromSections [] contentsList)
      | _ => Except.ok [] := by
  unfold parseFromBlock
  rw [hdec]

/-- C1: on a well-formed response (the marker block is found, and it
decodes to a document whose fixed navigation path leads to the sections),
the extractor returns ok with exactly min(N, 10) results, where N is the
number of video items in the decoded block (non-video items are skipped),
and every returned result carries a non-empty identifier; collection stops
at the hard cap of 10. -/
theorem parseYouTubeResults_cap (decode : String → Option Json)
    (html block : String) (sections : List Json)
    (hfind : findInitialData html = some block)
    (hdec : decode block = some (mkDoc sections)) :
    ∃ rs, parseYouTubeResults decode html = Except.ok rs ∧
      rs.length = min ((allVideos sections).length) 10 ∧
      ∀ r ∈ rs, r.VideoID ≠ "" := by
  refine ⟨collectFromSections [] sections, ?_, ?_, ?_⟩
  · rw [parseYouTubeResults_eq_block decode html block hfind,
      parseFromBlock_decode decode block _ hdec, navigate_mkDoc]
  · rw [collectFromSections_spec sections [] (by simp)]
    simp [List.length_take, Nat.min_comm]
  · intro r hr
    rw [collectFromSections_spec sections [] (by simp)] at hr
    simp only [List.nil_append, Nat.sub_zero] at hr
    have hr2 : r ∈ allVideos sections := List.take_subset _ _ hr
    unfold allVideos at hr2
    obtain ⟨l, hl, hrl⟩ := List.mem_flatten.mp hr2
    obtain ⟨s, _, hmap⟩ := List.mem_map.mp hl
    rw [← hmap] at hrl
    unfold sectionVideos at hrl
    cases hsi : sectionItems s with
    | none => rw [hsi] at hrl; simp at hrl
    | some items =>
      rw [hsi] at hrl
      obtain ⟨item, _, hit⟩ := List.mem_filterMap.mp hrl
      exact videoResult_VideoID_ne hit

/-- C1 witness: the concrete response whose block holds two video items
with an ad between them extracts both, in cap range. -/
theorem parseYouTubeResults_cap_witness :
    findInitialData htmlEx = some ("\x7b\x7d") ∧
    decodeEx ("\x7b\x7d") = some (mkDoc sectionsEx) ∧
    (allVideos sectionsEx).length = 2 ∧
    (∃ rs, parseYouTubeResults decodeEx htmlEx = Except.ok rs ∧
      rs.length = min ((allVideos sectionsEx).length) 10 ∧
      ∀ r ∈ rs, r.VideoID ≠ "") :=
  ⟨rfl, rfl, rfl,
   parseYouTubeResults_cap decodeEx htmlEx ("\x7b\x7d") sectionsEx rfl rfl⟩

/-- C7: the extractor's marker search is total and ordered - when neither
marker pattern matches the document, it returns the extraction error (a
total function of its input, it cannot panic); when the first pattern
matches, the result is computed from that match and the second pattern is
irrelevant; the second pattern's match is used exactly when the first
found none. -/
theorem parseYouTubeResults_marker (decode : String → Option Json)
    (html : String) :
    (findP1 html.data = none → findP2 html.data = none →
      parseYouTubeResults decode html = Except.error errNoData) ∧
    (∀ m, findP1 html.data = some m →
      parseYouTubeResults decode html = parseFromBlock decode (String.mk m)) ∧
    (findP1 html.data = none → ∀ m, findP2 html.data = some m →
      parseYouTubeResults decode html = parseFromBlock decode (String.mk m)) := by
  refine ⟨?_, ?_, ?_⟩
  · intro h1 h2
    unfold parseYouTubeResults findInitialData
    rw [h1, h2]
  · intro m h1
    unfold parseYouTubeResults findInitialData
    rw [h1]
  · intro h1 m h2
    unfold parseYouTubeResults findInitialData
    rw [h1, h2]

/-- C7 witness: a document with no marker under either pattern yields the
extraction error, for an arbitrary concrete decoder. -/
theorem parseYouTubeResults_marker_witness :
    findP1 ("hello").data = none ∧ findP2 ("hello").data = none ∧
    parseYouTubeResults (fun _ => none) ("hello") = Except.error errNoData :=
  ⟨rfl, rfl, (parseYouTubeResults_marker (fun _ => none) ("hello")).1 rfl rfl⟩

/-- C10: when the marker block is found and decodes as JSON, but the fixed
navigation path is absent or leads to a non-array value, the extractor
returns an empty result list with no error (not a parse error). -/
theorem parseYouTubeResults_path_missing (decode : String → Option Json)
    (html block : String) (data : Json)
    (hfind : findInitialData html = some block)
    (hdec : decode block = some data)
    (hnav : ∀ l, navigateJSON data ytPath ≠ some (Json.arr l)) :
    parseYouTubeResults decode html = Except.ok [] := by
  rw [parseYouTubeResults_eq_block decode html block hfind,
    parseFromBlock_decode decode block data hdec]
  cases hn : navigateJSON data ytPath with
  | none => rfl
  | some v =>
    cases v with
    | null => rfl
    | bool b => rfl
    | num n => rfl
    | str s => rfl
    | obj m => rfl
    | arr l => exact absurd hn (hnav l)

/-- C10 witness: a decoded block that is an empty object lacks the path;
the concrete call returns ok with the empty list. -/
theorem parseYouTubeResults_path_missing_witness :
    findInitialData htmlEx = some ("\x7b\x7d") ∧
    decodeEmptyObj ("\x7b\x7d") = some (Json.obj []) ∧
    parseYouTubeResults decodeEmptyObj htmlEx = Except.ok [] :=
  ⟨rfl, rfl,
   parseYouTubeResults_path_missing decodeEmptyObj htmlEx ("\x7b\x7d")
     (Json.obj []) rfl rfl (fun _ h => Option.noConfusion h)⟩

/-! ### Sanitizer lemmas (claim C5) -/

/-- A character of a byte-bounded prefix is a character of the list. -/
theorem mem_of_mem_takeBytes {c : Char} :
    ∀ {n : Nat} {l : List Char}, c ∈ takeBytes n l → c ∈ l
  | _, [], h => by simp [takeBytes] at h
  | n, a :: t, h => by
    rw [takeBytes] at h
    split at h
    · rcases List.mem_cons.mp h with h | h
      · exact h ▸ List.mem_cons_self a t
      · exact List.mem_cons_of_mem a (mem_of_mem_takeBytes h)
    · simp at h

/-- A character surviving dropWhile was in the original list. -/
theorem mem_of_mem_dropWhile {α : Type} {p : α → Bool} {c : α} :
    ∀ {l : List α}, c ∈ l.dropWhile p → c ∈ l
  | [], h => by simp [List.dropWhile] at h
  | a :: t, h => by
    rw [List.dropWhile] at h
    split at h
    · exact List.mem_cons_of_mem a (mem_of_mem_dropWhile h)
    · exact h

/-- A character surviving the two-sided trim was in the original list. -/
theorem mem_of_mem_trimBoth {p : Char → Bool} {c : Char} {l : List Char}
    (h : c ∈ trimBoth p l) : c ∈ l := by
  unfold trimBoth at h
  rw [List.mem_reverse] at h
  have h1 := mem_of_mem_dropWhile h
  rw [List.mem_reverse] at h1
  exact mem_of_mem_dropWhile h1

/-- The byte length of a byte-bounded prefix respects the bound. -/
theorem takeBytes_sum_le :
    ∀ (n : Nat) (l : List Char), ((takeBytes n l).map Char.utf8Size).sum ≤ n
  | _, [] => by simp [takeBytes]
  | n, c :: t => by
    rw [takeBytes]
    split
    · have ih := takeBytes_sum_le (n - c.utf8Size) t
      simp only [List.map_cons, List.sum_cons]
      omega
    · simp

/-- C5 counterexample: the title consisting of the letter a, a space and
a dot sanitizes to the letter a followed by a space - the trailing
whitespace survives because TrimSpace runs before the dot trim, so the
dot removal re-exposes it.  The claim that the derived name has
leading/trailing whitespace and dot characters trimmed is therefore false
at this input. -/
theorem sanitize_trailing_space_counterexample :
    sanitizeFilename ("a .") = "a " ∧
    (sanitizeFilename ("a .")).data.getLast? = some ' ' ∧
    edgeClean (sanitizeFilename ("a .")) = false := by
  decide

/-- C5 amended: for every title, the sanitized name contains no character
of the illegal class, is at most 100 bytes long, and is the 100-byte
truncation of the dot-trim of the whitespace-trim of the stripped title -
in that order, so whitespace re-exposed by the dot trim, or characters at
the truncation cut, may remain at the ends; and in the acquisition path an
empty sanitized title falls back to the raw video identifier. -/
theorem sanitizeFilename_spec (title videoID : String) :
    (∀ c ∈ (sanitizeFilename title).data, illegalChar c = false) ∧
    utf8Len (sanitizeFilename title) ≤ 100 ∧
    sanitizeFilename title =
      truncate100 (trimDots (trimSpaceGo (stripIllegal title))) ∧
    (sanitizeFilename title = "" → derivedName title videoID = videoID) := by
  refine ⟨?_, ?_, rfl, ?_⟩
  · intro c hc
    unfold sanitizeFilename truncate100 at hc
    have hmem : c ∈ (trimDots (trimSpaceGo (stripIllegal title))).data := by
      split at hc
      · exact mem_of_mem_takeBytes hc
      · exact hc
    have hmem2 : c ∈ (trimSpaceGo (stripIllegal title)).data :=
      mem_of_mem_trimBoth hmem
    have hmem3 : c ∈ (stripIllegal title).data :=
      mem_of_mem_trimBoth hmem2
    have := (List.mem_filter.mp hmem3).2
    simpa using this
  · unfold sanitizeFilename truncate100
    split
    · exact takeBytes_sum_le 100 _
    · next h => omega
  · intro h
    unfold derivedName
    rw [h]
    rfl

/-- C5 witness: a title of only illegal characters sanitizes to the empty
string and the acquisition path falls back to the raw identifier. -/
theorem sanitizeFilename_spec_witness :
    sanitizeFilename ("???") = "" ∧
    derivedName ("???") ("vid123") = "vid123" ∧
    ((∀ c ∈ (sanitizeFilename ("???")).data, illegalChar c = false) ∧
     utf8Len (sanitizeFilename ("???")) ≤ 100 ∧
     sanitizeFilename ("???") =
       truncate100 (trimDots (trimSpaceGo (stripIllegal ("???")))) ∧
     (sanitizeFilename ("???") = "" →
       derivedName ("???") ("vid123") = "vid123")) :=
  ⟨rfl, rfl, sanitizeFilename_spec ("???") ("vid123")⟩

/-! ### Player index lemmas (claims C6 and C8) -/

/-- PlayFile changes neither the playlist nor the current index, on the
success path and on every failure path. -/
theorem playFile_frame (env : AudioEnv) (p : Player) (path : String) :
    ((PlayFile env p path).1).playlist = p.playlist ∧
    ((PlayFile env p path).1).currentIndex = p.currentIndex := by
  unfold PlayFile stopInternal
  split_ifs <;> simp
  split <;> simp

/-- PlayIndex with an in-range index records that index as current (also
when the subsequent PlayFile fails) and keeps the playlist. -/
theorem playIndex_sets_index (env : AudioEnv) (p : Player) (idx : Int)
    (h0 : 0 ≤ idx) (h1 : idx < (p.playlist.length : Int)) :
    ((PlayIndex env p idx).1).playlist = p.playlist ∧
    ((PlayIndex env p idx).1).currentIndex = idx := by
  unfold PlayIndex
  rw [if_neg (by omega)]
  have h := playFile_frame env { p with currentIndex := idx }
    ((p.playlist.getD idx.toNat ⟨"", "", ""⟩).Path)
  simpa using h

/-- NextSong from an in-range index keeps the playlist and moves the index
to the wraparound successor, stated with the mathematical remainder. -/
theorem nextSong_index (env : AudioEnv) (p : Player)
    (h0 : 0 ≤ p.currentIndex)
    (h1 : p.currentIndex < (p.playlist.length : Int)) :
    ((NextSong env p).1).playlist = p.playlist ∧
    ((NextSong env p).1).currentIndex =
      (p.currentIndex + 1) % (p.playlist.length : Int) := by
  have hlen : ¬(p.playlist.length = 0) := by omega
  unfold NextSong
  rw [if_neg hlen]
  rw [Int.tmod_eq_emod (by omega) (by omega)]
  exact playIndex_sets_index env p _
    (Int.emod_nonneg _ (by omega)) (Int.emod_lt_of_pos _ (by omega))

/-- PrevSong from an in-range index keeps the playlist and moves the index
to the wraparound predecessor. -/
theorem prevSong_index (env : AudioEnv) (p : Player)
    (h0 : 0 ≤ p.currentIndex)
    (h1 : p.currentIndex < (p.playlist.length : Int)) :
    ((PrevSong env p).1).playlist = p.playlist ∧
    ((PrevSong env p).1).currentIndex =
      (p.currentIndex - 1 + (p.playlist.length : Int)) %
        (p.playlist.length : Int) := by
  have hlen : ¬(p.playlist.length = 0) := by omega
  simp only [PrevSong]
  rw [if_neg hlen]
  by_cases hz : p.currentIndex - 1 < 0
  · rw [if_pos hz]
    have hi0 : p.currentIndex = 0 := by omega
    have hval : (p.currentIndex - 1 + (p.playlist.length : Int)) %
        (p.playlist.length : Int) = (p.playlist.length : Int) - 1 := by
      rw [hi0]
      exact Int.emod_eq_of_lt (by omega) (by omega)
    rw [hval]
    exact playIndex_sets_index env p _ (by omega) (by omega)
  · rw [if_neg hz]
    have hval : (p.currentIndex - 1 + (p.playlist.length : Int)) %
        (p.playlist.length : Int) = p.currentIndex - 1 := by
      have harr : p.currentIndex - 1 + (p.playlist.length : Int) =
          p.currentIndex - 1 + (p.playlist.length : Int) * 1 := by ring
      rw [harr, Int.add_mul_emod_self_left]
      exact Int.emod_eq_of_lt (by omega) (by omega)
    rw [hval]
    exact playIndex_sets_index env p _ (by omega) (by omega)

/-- Shifting by a multiple-free remainder: reducing the left summand
modulo n first does not change a sum's remainder. -/
theorem emod_shift (i k n : Int) : (i % n + k) % n = (i + k) % n := by
  conv_lhs => rw [Int.add_emod]
  conv_rhs => rw [Int.add_emod]
  rw [Int.emod_emod_of_dvd _ dvd_rfl]

/-- Iterating NextSong k times from an in-range index keeps the playlist
and advances the index by k modulo the playlist length. -/
theorem nextIter_index (env : AudioEnv) :
    ∀ (k : Nat) (p : Player), 0 ≤ p.currentIndex →
      p.currentIndex < (p.playlist.length : Int) →
      (nextIter env k p).playlist = p.playlist ∧
      (nextIter env k p).currentIndex =
        (p.currentIndex + (k : Int)) % (p.playlist.length : Int)
  | 0, p, h0, h1 => by
    refine ⟨rfl, ?_⟩
    show p.currentIndex = _
    rw [Int.natCast_zero, add_zero, Int.emod_eq_of_lt h0 h1]
  | k + 1, p, h0, h1 => by
    have hs := nextSong_index env p h0 h1
    have hq0 : 0 ≤ ((NextSong env p).1).currentIndex := by
      rw [hs.2]; exact Int.emod_nonneg _ (by omega)
    have hq1 : ((NextSong env p).1).currentIndex <
        (((NextSong env p).1).playlist.length : Int) := by
      rw [hs.2, hs.1]; exact Int.emod_lt_of_pos _ (by omega)
    have ih := nextIter_index env k ((NextSong env p).1) hq0 hq1
    constructor
    · rw [nextIter, ih.1, hs.1]
    · rw [nextIter, ih.2, hs.1, hs.2, emod_shift]
      try (congr 1; push_cast; ring)

/-- Iterating PrevSong k times from an in-range index keeps the playlist
and retreats the index by k modulo the playlist length. -/
theorem prevIter_index (env : AudioEnv) :
    ∀ (k : Nat) (p : Player), 0 ≤ p.currentIndex →
      p.currentIndex < (p.playlist.length : Int) →
      (prevIter env k p).playlist = p.playlist ∧
      (prevIter env k p).currentIndex =
        (p.currentIndex - (k : Int)) % (p.playlist.length : Int)
  | 0, p, h0, h1 => by
    refine ⟨rfl, ?_⟩
    show p.currentIndex = _
    rw [Int.natCast_zero, sub_zero, Int.emod_eq_of_lt h0 h1]
  | k + 1, p, h0, h1 => by
    have hs := prevSong_index env p h0 h1
    have hq0 : 0 ≤ ((PrevSong env p).1).currentIndex := by
      rw [hs.2]; exact Int.emod_nonneg _ (by omega)
    have hq1 : ((PrevSong env p).1).currentIndex <
        (((PrevSong env p).1).playlist.length : Int) := by
      rw [hs.2, hs.1]; exact Int.emod_lt_of_pos _ (by omega)
    have ih := prevIter_index env k ((PrevSong env p).1) hq0 hq1
    constructor
    · rw [prevIter, ih.1, hs.1]
    · rw [prevIter, ih.2, hs.1, hs.2, sub_eq_add_neg, emod_shift]
      have harr : p.currentIndex - 1 + (p.playlist.length : Int) + -(k : Int) =
          (p.currentIndex - ((k : Int) + 1)) + (p.playlist.length : Int) * 1 := by
        ring
      rw [harr, Int.add_mul_emod_self_left]
      norm_cast

/-- C6: from any playlist of size N at least 1 and any current index in
[0, N), NextSong moves the index to (current + 1) mod N and PrevSong to
(current - 1 + N) mod N, and N applications of NextSong (or of PrevSong)
return to the original index - the wraparound closure property. -/
theorem nextPrev_wraparound (env : AudioEnv) (p : Player)
    (h0 : 0 ≤ p.currentIndex)
    (h1 : p.currentIndex < (p.playlist.length : Int)) :
    ((NextSong env p).1).currentIndex =
      (p.currentIndex + 1) % (p.playlist.length : Int) ∧
    ((PrevSong env p).1).currentIndex =
      (p.currentIndex - 1 + (p.playlist.length : Int)) %
        (p.playlist.length : Int) ∧
    (nextIter env p.playlist.length p).currentIndex = p.currentIndex ∧
    (prevIter env p.playlist.length p).currentIndex = p.currentIndex := by
  refine ⟨(nextSong_index env p h0 h1).2, (prevSong_index env p h0 h1).2,
    ?_, ?_⟩
  · rw [(nextIter_index env p.playlist.length p h0 h1).2]
    have harr : p.currentIndex + (p.playlist.length : Int) =
        p.currentIndex + (p.playlist.length : Int) * 1 := by ring
    rw [harr, Int.add_mul_emod_self_left, Int.emod_eq_of_lt h0 h1]
  · rw [(prevIter_index env p.playlist.length p h0 h1).2]
    have harr : p.currentIndex - (p.playlist.length : Int) =
        p.currentIndex + (p.playlist.length : Int) * (-1) := by ring
    rw [harr, Int.add_mul_emod_self_left, Int.emod_eq_of_lt h0 h1]

/-- C6 witness: the index formulas and both closure properties on a
concrete two-track playlist positioned at index 0. -/
theorem nextPrev_wraparound_witness :
    (0 ≤ playerEx.currentIndex ∧
     playerEx.currentIndex < (playerEx.playlist.length : Int)) ∧
    (((NextSong envEx playerEx).1).currentIndex =
       (playerEx.currentIndex + 1) % (playerEx.playlist.length : Int) ∧
     ((PrevSong envEx playerEx).1).currentIndex =
       (playerEx.currentIndex - 1 + (playerEx.playlist.length : Int)) %
         (playerEx.playlist.length : Int) ∧
     (nextIter envEx playerEx.playlist.length playerEx).currentIndex =
       playerEx.currentIndex ∧
     (prevIter envEx playerEx.playlist.length playerEx).currentIndex =
       playerEx.currentIndex) :=
  ⟨⟨by decide, by decide⟩,
   nextPrev_wraparound envEx playerEx (by decide) (by decide)⟩
